import Mathlib

/-!
Shallow embedding of the cmonkey utility library and Pratt parser
(src/src/cmonkey_utils.c, src/token.h) together with theorems checking the
specification's claims against it.  Pure C functions become Lean functions;
the parser's mutable `parser_t` becomes explicit state passing; C `NULL`
pointers become `Option`; unbounded C loops become fuel-indexed structural
recursion (the fuel is always chosen large enough that the fallback branch is
never taken on the inputs of interest).
-/

set_option maxHeartbeats 1000000

namespace Cmonkey

/-! ### cm_list (src/src/cmonkey_utils.c, cm_list_init / cm_list_add)

The C list is a singly linked list with `head`, `tail` and `length` fields;
a node's `next` pointer is `NULL` exactly at the tail.  We model the chain of
nodes reachable from `head` as a Lean list (`nodes`, index 0 = head, last
element = tail) and keep the C `length` field separately, since the code
maintains it on its own. -/

structure cm_list (α : Type) where
  nodes : List α
  length : Nat
deriving Repr, DecidableEq

/-- `cm_list_init`: head = tail = NULL, length = 0. -/
def cm_list_init (α : Type) : cm_list α := { nodes := [], length := 0 }

/-- `cm_list_add`: allocates a node with `next = NULL`, increments `length`,
and links it as the new tail (or as head and tail when the list was empty).
The `malloc` failure path (return 0, list untouched) is not modelled; the
returned `Nat` is the C return value 1 of the successful path. -/
def cm_list_add {α : Type} (list : cm_list α) (data : α) : Nat × cm_list α :=
  let list2 := { list with length := list.length + 1 }
  if list2.nodes.isEmpty then
    (1, { list2 with nodes := [data] })
  else
    (1, { list2 with nodes := list2.nodes ++ [data] })

/-! ### cm_hash_table (src/src/cmonkey_utils.c)

Buckets are `cm_list`s of `cm_hash_entry`; we model the table array as a
function from bucket index to the bucket's entry sequence (head first, as in
the C list).  `table_size` is a field; `cm_hash_table_init` in C sets it to
`INITIAL_HASHTABLE_SIZE`, a macro from cmonkey_utils.h which is not part of
src/, so the size is taken as a parameter here (no claim depends on its
value). -/

structure cm_hash_entry (κ ν : Type) where
  key : κ
  value : ν
deriving Repr, DecidableEq

structure cm_hash_table (κ ν : Type) where
  hash_func : κ → Nat
  keycmp : κ → κ → Bool
  table_size : Nat
  table : Nat → List (cm_hash_entry κ ν)
  nentries : Nat
  nkeys : Nat

def cm_hash_table_init {κ ν : Type} (hash_func : κ → Nat) (keycmp : κ → κ → Bool)
    (table_size : Nat) : cm_hash_table κ ν :=
  { hash_func := hash_func, keycmp := keycmp, table_size := table_size,
    table := fun _ => [], nentries := 0, nkeys := 0 }

/-- `cm_hash_table_put`: computes the bucket from `hash_func(key) % table_size`,
creates the bucket list if it did not exist (incrementing `nentries`), then
unconditionally appends a fresh `{key, value}` entry at the tail of the bucket
list and increments `nkeys`.  Note: the C code never searches the bucket for
an existing equal key. -/
def cm_hash_table_put {κ ν : Type} (hash_table : cm_hash_table κ ν) (key : κ) (value : ν) :
    cm_hash_table κ ν :=
  let index := hash_table.hash_func key % hash_table.table_size
  let list_entry := hash_table.table index
  let nentries2 := if list_entry.isEmpty then hash_table.nentries + 1 else hash_table.nentries
  { hash_table with
    table := fun i => if i = index then list_entry ++ [⟨key, value⟩] else hash_table.table i,
    nentries := nentries2,
    nkeys := hash_table.nkeys + 1 }

/-- `cm_hash_table_get`: walks the bucket list from its head and returns the
value of the first entry whose stored key satisfies `keycmp(entry->key, key)`;
`NULL` (here `none`) if the bucket is missing or no entry matches. -/
def cm_hash_table_get {κ ν : Type} (hash_table : cm_hash_table κ ν) (key : κ) : Option ν :=
  let index := hash_table.hash_func key % hash_table.table_size
  let entry_list := hash_table.table index
  ((entry_list.find? fun entry => hash_table.keycmp entry.key key).map cm_hash_entry.value)

/-- `string_hash_function`: the djb2 hash, `hash = hash * 33 + c` over the
bytes of the string starting from 5381, on C `unsigned long` (64-bit, hence
the explicit reduction modulo 2^64). -/
def string_hash_function (key : String) : Nat :=
  key.data.foldl (fun hash c => (hash * 33 + c.toNat) % 2 ^ 64) 5381

/-- `string_keycmp`: `strcmp(key1, key2) == 0`. -/
def string_keycmp (key1 key2 : String) : Bool := key1 == key2

/-! ### calculate_string_size / long_to_string (src/src/cmonkey_utils.c)

`long_to_string` fills a character buffer from the right: a NUL, then the
decimal digits of `|l|` least-significant first (the `while (l >= 10)` loop),
then the most significant digit, then `-` when `l` was negative.  We model
the resulting character sequence directly; the `while` loops become
fuel-indexed recursions where the fuel `m + 1` strictly bounds the number of
iterations (each iteration divides the counter by 10). -/

/-- The digit characters that `long_to_string`'s loop plus final write leave
in the buffer for the magnitude `m`, most significant first: the loop emits
`48 + m % 10` for successive quotients while `m >= 10`, and the final store
emits `48 + m` for the last quotient. -/
def lts_go : Nat → Nat → List Char
  | 0, _ => []
  | fuel + 1, m =>
    if 10 ≤ m then lts_go fuel (m / 10) ++ [Char.ofNat (48 + m % 10)]
    else [Char.ofNat (48 + m)]

/-- `long_to_string l`: `-` sign exactly when `l < 0`, then the digit
characters of `|l|`.  (For `l = LONG_MIN` the C negation `-1 * l` overflows;
the claims therefore only quantify over `l > LONG_MIN`.) -/
def long_to_string (l : Int) : String :=
  let is_negative := l < 0
  let n := l.natAbs
  String.mk (if is_negative then '-' :: lts_go (n + 1) n else lts_go (n + 1) n)

/-- The `while (l >= 10)` counting loop of `calculate_string_size`. -/
def css_go : Nat → Nat → Nat
  | 0, _ => 0
  | fuel + 1, m => if 10 ≤ m then css_go fuel (m / 10) + 1 else 0

/-- `calculate_string_size`: 1 for the sign when negative, plus one per
division by 10, plus 1. -/
def calculate_string_size (l : Int) : Nat :=
  let n := l.natAbs
  (if l < 0 then 1 else 0) + css_go (n + 1) n + 1

/-- Specification-side value of a list of decimal digit characters
(most significant first). -/
def dec_chars_val (ds : List Char) : Nat :=
  ds.foldl (fun acc c => acc * 10 + (c.toNat - 48)) 0

/-- Specification-side decimal string reader: optional leading `-`, then
digit characters. -/
def dec_string_val (s : String) : Int :=
  match s.data with
  | c :: ds => if c = '-' then -(dec_chars_val ds : Int) else (dec_chars_val (c :: ds) : Int)
  | [] => 0

/-! ### Big-endian codec (claim C8)

`size_t_to_uint8_be` and `be_to_size_t` are declared in the repository
(code.h declares `decode_instructions_to_sizet`; the tests call
`size_t_to_uint8_be` and `be_to_size_t`) but their definitions are in
code.c, which is not under src/. -/

/-- Modelled from the spec: `size_t_to_uint8_be` (code.c, not under src/)
encodes `n` into `width` bytes, big-endian unsigned — byte `i` holds
`n / 256^(width-1-i) % 256`, so the high byte comes first (§6.3: "All
multi-byte operands are big-endian unsigned"). -/
def size_t_to_uint8_be (n : Nat) (width : Nat) : List Nat :=
  (List.range width).map fun i => n / 256 ^ (width - 1 - i) % 256

/-- Modelled from the spec: `be_to_size_t` / `decode_instructions_to_sizet`
(code.c, not under src/) decodes big-endian unsigned bytes by folding
`acc * 256 + byte` from the first (highest) byte, as exercised for width 2 by
`test_be_to_size_t` in src/src/cmonkey_utils_tests.c. -/
def be_to_size_t (bytes : List Nat) : Nat :=
  bytes.foldl (fun acc b => acc * 256 + b) 0

/-! ### Tokens (src/token.h)

The `token_type` enumeration of src/token.h, with its 27 members in source
order.  Note the source file has no STRING, COLON, LBRACKET or RBRACKET
members. -/

inductive token_type where
  | ILLEGAL
  | END_OF_FILE
  | IDENT
  | INT
  | ASSIGN
  | PLUS
  | MINUS
  | BANG
  | SLASH
  | ASTERISK
  | LT
  | GT
  | EQ
  | NOT_EQ
  | COMMA
  | SEMICOLON
  | LPAREN
  | RPAREN
  | LBRACE
  | RBRACE
  | FUNCTION
  | LET
  | IF
  | ELSE
  | RETURN
  | TRUE
  | FALSE
deriving Repr, DecidableEq

/-- The member identifiers of the `token_type` enum of src/token.h, in
declaration order. -/
def token_type_names : List String :=
  ["ILLEGAL", "END_OF_FILE", "IDENT", "INT", "ASSIGN", "PLUS", "MINUS", "BANG",
   "SLASH", "ASTERISK", "LT", "GT", "EQ", "NOT_EQ", "COMMA", "SEMICOLON",
   "LPAREN", "RPAREN", "LBRACE", "RBRACE", "FUNCTION", "LET", "IF", "ELSE",
   "RETURN", "TRUE", "FALSE"]

/-- All members of `token_type`, in declaration order. -/
def all_token_types : List token_type :=
  [.ILLEGAL, .END_OF_FILE, .IDENT, .INT, .ASSIGN, .PLUS, .MINUS, .BANG,
   .SLASH, .ASTERISK, .LT, .GT, .EQ, .NOT_EQ, .COMMA, .SEMICOLON,
   .LPAREN, .RPAREN, .LBRACE, .RBRACE, .FUNCTION, .LET, .IF, .ELSE,
   .RETURN, .TRUE, .FALSE]

/-- Modelled from the spec: `get_token_name_from_type` lives in token.c,
which is not under src/; it renders a token type as its enum member name
(the names the spec's §6.1 closed set lists). -/
def get_token_name_from_type : token_type → String
  | .ILLEGAL => "ILLEGAL"
  | .END_OF_FILE => "END_OF_FILE"
  | .IDENT => "IDENT"
  | .INT => "INT"
  | .ASSIGN => "ASSIGN"
  | .PLUS => "PLUS"
  | .MINUS => "MINUS"
  | .BANG => "BANG"
  | .SLASH => "SLASH"
  | .ASTERISK => "ASTERISK"
  | .LT => "LT"
  | .GT => "GT"
  | .EQ => "EQ"
  | .NOT_EQ => "NOT_EQ"
  | .COMMA => "COMMA"
  | .SEMICOLON => "SEMICOLON"
  | .LPAREN => "LPAREN"
  | .RPAREN => "RPAREN"
  | .LBRACE => "LBRACE"
  | .RBRACE => "RBRACE"
  | .FUNCTION => "FUNCTION"
  | .LET => "LET"
  | .IF => "IF"
  | .ELSE => "ELSE"
  | .RETURN => "RETURN"
  | .TRUE => "TRUE"
  | .FALSE => "FALSE"

/-- A token: a `token_type` and the source lexeme (src/token.h `struct token`). -/
structure token where
  type : token_type
  literal : String
deriving Repr, DecidableEq

/-! ### Lexer

Modelled from the spec: lexer.c is not under src/.  Per §4.1: whitespace is
discarded; `==`/`!=` are two-character operators and `=`/`!` one-character;
identifiers are `[A-Za-z_][A-Za-z0-9_]*` checked against the keyword set;
integers are `[0-9]+`; unknown bytes become `ILLEGAL` tokens carrying the
byte; the end of input yields `END_OF_FILE`.  The token kinds are restricted
to the src/token.h set, which has no STRING/COLON/LBRACKET/RBRACKET members,
so `"`, `:`, `[`, `]` fall to the unknown-byte (`ILLEGAL`) case. -/

def eof_token : token := ⟨.END_OF_FILE, ""⟩

def is_ws_char (c : Char) : Bool :=
  c == ' ' || c == '\t' || c == '\r' || c == '\n'

def is_letter_char (c : Char) : Bool :=
  (('a' ≤ c && c ≤ 'z') || ('A' ≤ c && c ≤ 'Z') || c == '_')

def is_digit_char (c : Char) : Bool :=
  ('0' ≤ c && c ≤ '9')

/-- Keyword lookup for a scanned identifier (spec §4.1 keyword set). -/
def lookup_ident (ident : String) : token_type :=
  if ident = "let" then .LET
  else if ident = "fn" then .FUNCTION
  else if ident = "if" then .IF
  else if ident = "else" then .ELSE
  else if ident = "return" then .RETURN
  else if ident = "true" then .TRUE
  else if ident = "false" then .FALSE
  else .IDENT

/-- One-character operator and delimiter tokens of src/token.h. -/
def single_char_token : Char → Option token_type
  | '+' => some .PLUS
  | '-' => some .MINUS
  | '*' => some .ASTERISK
  | '/' => some .SLASH
  | '<' => some .LT
  | '>' => some .GT
  | ',' => some .COMMA
  | ';' => some .SEMICOLON
  | '(' => some .LPAREN
  | ')' => some .RPAREN
  | '\x7b' => some .LBRACE
  | '\x7d' => some .RBRACE
  | _ => none

/-- The lexer loop; the fuel strictly bounds the number of emitted tokens and
skipped characters (each step consumes at least one character), so fuel
`length + 1` never runs out. -/
def lex_go : Nat → List Char → List token
  | 0, _ => []
  | _ + 1, [] => [eof_token]
  | fuel + 1, c :: cs =>
    if is_ws_char c then lex_go fuel cs
    else if c = '=' then
      match cs with
      | '=' :: cs2 => ⟨.EQ, "=="⟩ :: lex_go fuel cs2
      | _ => ⟨.ASSIGN, "="⟩ :: lex_go fuel cs
    else if c = '!' then
      match cs with
      | '=' :: cs2 => ⟨.NOT_EQ, "!="⟩ :: lex_go fuel cs2
      | _ => ⟨.BANG, "!"⟩ :: lex_go fuel cs
    else
      match single_char_token c with
      | some tt => ⟨tt, String.mk [c]⟩ :: lex_go fuel cs
      | none =>
        if is_letter_char c then
          let word := c :: cs.takeWhile fun x => is_letter_char x || is_digit_char x
          let lit := String.mk word
          ⟨lookup_ident lit, lit⟩ ::
            lex_go fuel (cs.dropWhile fun x => is_letter_char x || is_digit_char x)
        else if is_digit_char c then
          let word := c :: cs.takeWhile is_digit_char
          ⟨.INT, String.mk word⟩ :: lex_go fuel (cs.dropWhile is_digit_char)
        else
          ⟨.ILLEGAL, String.mk [c]⟩ :: lex_go fuel cs

/-- Modelled from the spec: the full lexer — tokens of the source text,
terminated by an `END_OF_FILE` token. -/
def lex (s : String) : List token := lex_go (s.length + 1) s.data

/-! ### Operator precedences

Modelled from the spec: the `operator_precedence_t` enum lives in parser.h,
which is not under src/; §4.2 fixes the order
`LOWEST < EQUALS < LESSGREATER < SUM < PRODUCT < PREFIX < CALL`.  The
member for unary operators is called `PREFIX` in the source and is renamed
`PREFIX_LEVEL` here. -/

def LOWEST : Nat := 0
def EQUALS : Nat := 1
def LESSGREATER : Nat := 2
def SUM : Nat := 3
def PRODUCT : Nat := 4
def PREFIX_LEVEL : Nat := 5
def CALL : Nat := 6

/-- `precedence` (src/src/cmonkey_utils.c:473): token type to operator
precedence; everything not listed gets `LOWEST`. -/
def precedence : token_type → Nat
  | .EQ => EQUALS
  | .NOT_EQ => EQUALS
  | .LT => LESSGREATER
  | .GT => LESSGREATER
  | .PLUS => SUM
  | .MINUS => SUM
  | .SLASH => PRODUCT
  | .ASTERISK => PRODUCT
  | .LPAREN => CALL
  | _ => LOWEST

/-! ### AST (ast.h as used by src/src/cmonkey_utils.c)

C `NULL` expression/statement pointers become `Option`; the parser really
does store `NULL` children on its error paths (`parse_expression` returns
`NULL`, `cm_list_add(arguments, arg)` adds a `NULL` argument, ...), hence
the `Option`s inside nodes.  An `identifier_t` is its token plus its `value`
string; a function literal's `parameters` list is `none` when the C code
sets `function->parameters = NULL`, and a call's `arguments` likewise. -/

mutual

inductive expression_t where
  | identifier (tok : token) (value : String)
  | integer (tok : token) (value : Int)
  | prefix_expression (tok : token) (op : String) (right : Option expression_t)
  | infix_expression (tok : token) (op : String)
      (left : Option expression_t) (right : Option expression_t)
  | boolean_expression (tok : token) (value : Bool)
  | if_expression (tok : token) (condition : Option expression_t)
      (consequence : Option statement_t) (alternative : Option statement_t)
  | function_literal (tok : token) (parameters : Option (List (token × String)))
      (body : Option statement_t)
  | call_expression (tok : token) (function : Option expression_t)
      (arguments : Option (List (Option expression_t)))
deriving Repr

inductive statement_t where
  | letstatement (tok : token) (name : Option (token × String))
      (value : Option expression_t)
  | return_statement (tok : token) (return_value : Option expression_t)
  | expression_statement (tok : token) (expression : Option expression_t)
  | block_statement (tok : token) (statements : List statement_t)
deriving Repr

end

/-- A `program_t` is its ordered statement sequence. -/
structure program_t where
  statements : List statement_t
deriving Repr

/-! ### AST string forms (the `node.string` function pointers)

The C string functions return `char *`; a few paths return `NULL`
(`block_statement_string` of an empty block, `program_string` of an empty
program) and a few paths dereference a `NULL` child unconditionally
(`prefix_expression_string` on a `NULL` right operand, ...), which would
crash.  Both are modelled as `none`; no claim exercises a path where the two
need to be told apart (the C also passes a `NULL` block string to
`asprintf`'s `%s`, which glibc renders as "(null)" — again not exercised).

`return_statement_string` (src/src/cmonkey_utils.c:603) is special: its
`asprintf` calls `ret_stmt->statement.node.string(ret_stmt)` — that function
pointer is `return_statement_string` itself (set in
`create_return_statement`), so rendering any return statement recurses with
the same argument forever and never produces a string.  It is modelled as
`none`. -/

/-- `generate_parameters_string` on a function literal's parameter list
(identifiers render as their `value`); `NULL` or empty gives `""`. -/
def generate_parameters_string (parameters : Option (List (token × String))) : String :=
  match parameters with
  | none => ""
  | some ps => String.intercalate ", " (ps.map fun pr => pr.2)

mutual

def expression_string : expression_t → Option String
  | .identifier _ value => some value
  | .integer _ v => some (long_to_string v)
  | .prefix_expression _ op right =>
    match right with
    | none => none
    | some r => (expression_string r).map fun rs => "(" ++ op ++ rs ++ ")"
  | .infix_expression _ op left right =>
    match left, right with
    | some l, some r =>
      match expression_string l, expression_string r with
      | some ls, some rs => some ("(" ++ ls ++ " " ++ op ++ " " ++ rs ++ ")")
      | _, _ => none
    | _, _ => none
  | .boolean_expression _ v => some (if v then "true" else "false")
  | .if_expression _ condition consequence alternative =>
    match condition, consequence with
    | some c, some q =>
      match expression_string c, statement_string q with
      | some cs, some qs =>
        match alternative with
        | none => some ("if" ++ cs ++ " " ++ qs)
        | some a => (statement_string a).map fun as2 => "if" ++ cs ++ " " ++ qs ++ " else " ++ as2
      | _, _ => none
    | _, _ => none
  | .function_literal tok parameters body =>
    match body with
    | none => none
    | some b =>
      match statement_string b with
      | some bs => some (tok.literal ++ "(" ++ generate_parameters_string parameters ++ ") " ++ bs)
      | none => none
  | .call_expression _ function arguments =>
    match function with
    | none => none
    | some f =>
      match expression_string f,
            (match arguments with | none => some "" | some list => call_args_join list) with
      | some fs, some args => some (fs ++ "(" ++ args ++ ")")
      | _, _ => none
termination_by structural e => e

def statement_string : statement_t → Option String
  | .letstatement tok name value =>
    match name with
    | none => none
    | some nm =>
      match (match value with | none => some "" | some e => expression_string e) with
      | none => none
      | some vs => some (tok.literal ++ " " ++ nm.2 ++ " = " ++ vs ++ ";")
  | .return_statement _ _ => none
  | .expression_statement _ expression =>
    match expression with
    | none => some ""
    | some e => expression_string e
  | .block_statement _ statements => statements_join statements
termination_by structural s => s

/-- The joining loops of `block_statement_string` and `program_string`:
`NULL` for an empty sequence, otherwise the statements' strings separated by
single spaces. -/
def statements_join : List statement_t → Option String
  | [] => none
  | s :: rest =>
    match statement_string s with
    | none => none
    | some str =>
      match rest with
      | [] => some str
      | _ :: _ => (statements_join rest).map fun tl => str ++ " " ++ tl
termination_by structural l => l

/-- `generate_parameters_string` as reused by `call_expression_string` on the
call's argument expressions ("" for empty; a `NULL` argument is
dereferenced — `none`). -/
def call_args_join : List (Option expression_t) → Option String
  | [] => some ""
  | none :: _ => none
  | some e :: rest =>
    match expression_string e with
    | none => none
    | some s =>
      match rest with
      | [] => some s
      | _ :: _ => (call_args_join rest).map fun tl => s ++ ", " ++ tl

end

/-- `program_string`: the same accumulate-with-spaces loop over the program's
statements (`NULL` when there are none). -/
def program_string (program : program_t) : Option String :=
  statements_join program.statements

/-! ### Parser state (parser_t)

`parser_t` holds the lexer, the current and peek tokens and the error list.
The lexer component is modelled as the list of tokens it has yet to produce
(`lexer_next_token` yields `END_OF_FILE` forever once exhausted, as the C
lexer does at end of input). -/

structure parser_t where
  cur_tok : token
  peek_tok : token
  rest : List token
  errors : List String
deriving Repr, DecidableEq

/-- `lexer_next_token` as seen through the remaining-token model. -/
def lexer_next_token (rest : List token) : token × List token :=
  match rest with
  | [] => (eof_token, [])
  | t :: ts => (t, ts)

/-- `parser_next_token`: cur ← peek, peek ← lexer_next_token. -/
def parser_next_token (parser : parser_t) : parser_t :=
  { parser with
    cur_tok := parser.peek_tok,
    peek_tok := (lexer_next_token parser.rest).1,
    rest := (lexer_next_token parser.rest).2 }

/-- `parser_init`: two advances load `cur_tok` and `peek_tok` (the initial
NULL tokens are modelled by `eof_token` placeholders, discarded by the two
advances). -/
def parser_init (tokens : List token) : parser_t :=
  parser_next_token (parser_next_token
    { cur_tok := eof_token, peek_tok := eof_token, rest := tokens, errors := [] })

/-- `add_parse_error`: appends to the parser's error list. -/
def add_parse_error (parser : parser_t) (errmsg : String) : parser_t :=
  { parser with errors := parser.errors ++ [errmsg] }

/-- `handle_no_prefix_fn` (src/src/cmonkey_utils.c:463): records
`no prefix parse function for the token "<literal>"`. -/
def handle_no_prefix_fn (parser : parser_t) : parser_t :=
  add_parse_error parser
    ("no prefix parse function for the token \"" ++ parser.cur_tok.literal ++ "\"")

/-- `peek_error` (src/src/cmonkey_utils.c:1235): records
`expected next token to be <X>, got <Y> instead`. -/
def peek_error (parser : parser_t) (tok_type : token_type) : parser_t :=
  add_parse_error parser
    ("expected next token to be " ++ get_token_name_from_type tok_type ++
     ", got " ++ get_token_name_from_type parser.peek_tok.type ++ " instead")

/-- `expect_peek`: advance on a matching peek token, else record a peek
error; returns the C int result (true = advanced). -/
def expect_peek (parser : parser_t) (tok_type : token_type) : Bool × parser_t :=
  if parser.peek_tok.type = tok_type then (true, parser_next_token parser)
  else (false, peek_error parser tok_type)

def peek_precedence (parser : parser_t) : Nat := precedence parser.peek_tok.type

def cur_precedence (parser : parser_t) : Nat := precedence parser.cur_tok.type

/-! ### strtol

`parse_integer_expression` converts the token literal with
`strtol(literal, &ep, 10)` and records an error when `ep == literal` (no
digits converted), `*ep != 0` (trailing characters) or `errno != 0`
(overflow).  `strtol10` models glibc strtol with base 10: skip C whitespace,
optional sign, then digits; the value saturates at LONG_MAX/LONG_MIN with
`errno = ERANGE` on overflow.  `consumed` is the offset of `ep` into the
string (0 when no digits were converted). -/

def LONG_MAX : Int := 2 ^ 63 - 1
def LONG_MIN : Int := -(2 ^ 63)

structure strtol_result where
  value : Int
  consumed : Nat
  overflow : Bool
deriving Repr, DecidableEq

def is_c_space (c : Char) : Bool :=
  c == ' ' || c == '\t' || c == '\n' || c == '\r' || c == '\x0b' || c == '\x0c'

def strtol10 (s : String) : strtol_result :=
  let cs := s.data
  let ws := cs.takeWhile is_c_space
  let cs1 := cs.dropWhile is_c_space
  let sign : Int := match cs1 with
    | '-' :: _ => -1
    | _ => 1
  let sign_len : Nat := match cs1 with
    | '-' :: _ => 1
    | '+' :: _ => 1
    | _ => 0
  let ds := (cs1.drop sign_len).takeWhile is_digit_char
  if ds.isEmpty then { value := 0, consumed := 0, overflow := false }
  else
    let magnitude : Nat := ds.foldl (fun acc c => acc * 10 + (c.toNat - 48)) 0
    let v : Int := sign * magnitude
    let consumed := ws.length + sign_len + ds.length
    if v < LONG_MIN then { value := LONG_MIN, consumed := consumed, overflow := true }
    else if LONG_MAX < v then { value := LONG_MAX, consumed := consumed, overflow := true }
    else { value := v, consumed := consumed, overflow := false }

/-! ### Non-recursive prefix parse functions -/

/-- `create_identifier` / `parse_identifier_expression`: an identifier node
from the current token. -/
def parse_identifier_expression (parser : parser_t) : Option expression_t × parser_t :=
  (some (.identifier parser.cur_tok parser.cur_tok.literal), parser)

/-- `parse_integer_expression` (src/src/cmonkey_utils.c:1451): builds the
integer node from `strtol` of the literal, recording
`could not parse <literal> as integer` when the conversion was not clean;
the node is returned in either case. -/
def parse_integer_expression (parser : parser_t) : Option expression_t × parser_t :=
  let r := strtol10 parser.cur_tok.literal
  let exp := expression_t.integer parser.cur_tok r.value
  let parser2 :=
    if r.consumed = 0 ∨ r.consumed < parser.cur_tok.literal.length ∨ r.overflow then
      add_parse_error parser ("could not parse " ++ parser.cur_tok.literal ++ " as integer")
    else parser
  (some exp, parser2)

/-- `parse_boolean_expression`: true exactly when the current token is
`TRUE`. -/
def parse_boolean_expression (parser : parser_t) : Option expression_t × parser_t :=
  (some (.boolean_expression parser.cur_tok (parser.cur_tok.type = .TRUE)), parser)

/-! ### The parse function tables

`prefix_fns` and `infix_fns` (src/src/cmonkey_utils.c:391 and :421) are
arrays of function pointers indexed by `token_type`; a `NULL` slot is
`none`.  The tags name the C functions the non-`NULL` slots point to. -/

inductive prefix_fn_t where
  /-- `parse_identifier_expression` (the IDENT slot) -/
  | identifier_fn
  /-- `parse_integer_expression` (the INT slot) -/
  | integer_fn
  /-- `parse_prefix_expression` (the MINUS and BANG slots) -/
  | prefix_op_fn
  /-- `parse_grouped_expression` (the LPAREN slot) -/
  | grouped_fn
  /-- `parse_function_literal` (the FUNCTION slot) -/
  | function_fn
  /-- `parse_if_expression` (the IF slot) -/
  | if_fn
  /-- `parse_boolean_expression` (the TRUE and FALSE slots) -/
  | boolean_fn
deriving Repr, DecidableEq

inductive infix_fn_t where
  /-- `parse_infix_expression` (the eight binary-operator slots) -/
  | infix_op_fn
  /-- `parse_call_expression` (the LPAREN slot) -/
  | call_fn
deriving Repr, DecidableEq

def prefix_fns : token_type → Option prefix_fn_t
  | .IDENT => some .identifier_fn
  | .INT => some .integer_fn
  | .MINUS => some .prefix_op_fn
  | .BANG => some .prefix_op_fn
  | .LPAREN => some .grouped_fn
  | .FUNCTION => some .function_fn
  | .IF => some .if_fn
  | .TRUE => some .boolean_fn
  | .FALSE => some .boolean_fn
  | _ => none

def infix_fns : token_type → Option infix_fn_t
  | .PLUS => some .infix_op_fn
  | .MINUS => some .infix_op_fn
  | .SLASH => some .infix_op_fn
  | .ASTERISK => some .infix_op_fn
  | .LT => some .infix_op_fn
  | .GT => some .infix_op_fn
  | .EQ => some .infix_op_fn
  | .NOT_EQ => some .infix_op_fn
  | .LPAREN => some .call_fn
  | _ => none

/-! ### parse_function_parameters / parse_call_arguments loops

`parse_function_parameters` collects identifiers separated by commas; it does
not call back into expression parsing, so it sits outside the main mutual
block.  The `while (peek == COMMA)` loop becomes a fueled recursion (each
iteration consumes two tokens, so any fuel beyond the stream length is
enough). -/

def parse_params_loop : Nat → List (token × String) → parser_t →
    List (token × String) × parser_t
  | 0, acc, parser => (acc, parser)
  | fuel + 1, acc, parser =>
    if parser.peek_tok.type = .COMMA then
      let parser1 := parser_next_token (parser_next_token parser)
      parse_params_loop fuel (acc ++ [(parser1.cur_tok, parser1.cur_tok.literal)]) parser1
    else (acc, parser)

/-- `parse_function_parameters`: `none` models the C setting
`function->parameters = NULL` when the closing RPAREN is missing. -/
def parse_function_parameters : Nat → parser_t →
    Option (List (token × String)) × parser_t
  | 0, parser => (none, parser)
  | fuel + 1, parser =>
    if parser.peek_tok.type = .RPAREN then (some [], parser_next_token parser)
    else
      let parser1 := parser_next_token parser
      let r := parse_params_loop fuel [(parser1.cur_tok, parser1.cur_tok.literal)] parser1
      let e := expect_peek r.2 .RPAREN
      if e.1 then (some r.1, e.2) else (none, e.2)

/-! ### The recursive heart of the parser

All of these functions are mutually recursive through `parse_expression`;
the C recursion is unbounded in the nesting depth of the input, so each
function takes a fuel argument and every cross-call passes the predecessor,
making the block structurally recursive on the fuel.  An exhausted-fuel call
returns its input state unchanged with a `none`/empty result; all theorems
either quantify over the fuel or use a fuel large enough that this branch is
never reached.  Results are returned as `(result, state)` pairs. -/

mutual

/-- `parse_expression` (src/src/cmonkey_utils.c:1298): look up the prefix
function for the current token (recording the no-prefix error when the table
slot is NULL), run it, then run the infix loop on the result. -/
def parse_expression : Nat → Nat → parser_t → Option expression_t × parser_t
  | 0, _, parser => (none, parser)
  | fuel + 1, prec, parser =>
    match prefix_fns parser.cur_tok.type with
    | none => (none, handle_no_prefix_fn parser)
    | some pfn =>
      let r :=
        match pfn with
        | .identifier_fn => parse_identifier_expression parser
        | .integer_fn => parse_integer_expression parser
        | .prefix_op_fn => parse_prefix_expression fuel parser
        | .grouped_fn => parse_grouped_expression fuel parser
        | .function_fn => parse_function_literal fuel parser
        | .if_fn => parse_if_expression fuel parser
        | .boolean_fn => parse_boolean_expression parser
      parse_expression_loop fuel prec r.1 r.2
termination_by structural fuel => fuel

/-- The `for (;;)` loop of `parse_expression`: stop on a SEMICOLON peek
token, when the minimum precedence is not strictly below the peek token's
precedence, or when the peek token has no infix function; otherwise advance
and run the infix function on `left`. -/
def parse_expression_loop : Nat → Nat → Option expression_t → parser_t →
    Option expression_t × parser_t
  | 0, _, left, parser => (left, parser)
  | fuel + 1, prec, left, parser =>
    if parser.peek_tok.type = .SEMICOLON then (left, parser)
    else if peek_precedence parser ≤ prec then (left, parser)
    else
      match infix_fns parser.peek_tok.type with
      | none => (left, parser)
      | some ifn =>
        let parser1 := parser_next_token parser
        let r :=
          match ifn with
          | .infix_op_fn => parse_infix_expression fuel parser1 left
          | .call_fn => parse_call_expression fuel parser1 left
        parse_expression_loop fuel prec r.1 r.2
termination_by structural fuel => fuel

/-- `parse_prefix_expression` (src/src/cmonkey_utils.c:1485): operator from
the current token, operand parsed at PREFIX precedence. -/
def parse_prefix_expression : Nat → parser_t → Option expression_t × parser_t
  | 0, parser => (none, parser)
  | fuel + 1, parser =>
    let tok := parser.cur_tok
    let op := parser.cur_tok.literal
    let parser1 := parser_next_token parser
    let r := parse_expression fuel PREFIX_LEVEL parser1
    (some (.prefix_expression tok op r.1), r.2)
termination_by structural fuel => fuel

/-- `parse_infix_expression` (src/src/cmonkey_utils.c:1513): operator and
its precedence from the current token, right operand parsed at that
precedence. -/
def parse_infix_expression : Nat → parser_t → Option expression_t →
    Option expression_t × parser_t
  | 0, parser, _ => (none, parser)
  | fuel + 1, parser, left =>
    let tok := parser.cur_tok
    let op := parser.cur_tok.literal
    let prec := cur_precedence parser
    let parser1 := parser_next_token parser
    let r := parse_expression fuel prec parser1
    (some (.infix_expression tok op left r.1), r.2)
termination_by structural fuel => fuel

/-- `parse_grouped_expression` (src/src/cmonkey_utils.c:1568): inner
expression at LOWEST, then a required RPAREN (`none` when missing). -/
def parse_grouped_expression : Nat → parser_t → Option expression_t × parser_t
  | 0, parser => (none, parser)
  | fuel + 1, parser =>
    let parser1 := parser_next_token parser
    let r := parse_expression fuel LOWEST parser1
    let e := expect_peek r.2 .RPAREN
    if e.1 then (r.1, e.2) else (none, e.2)
termination_by structural fuel => fuel

/-- `parse_block_statement` (src/src/cmonkey_utils.c:1587): block token from
the current token (the LBRACE), then statements until RBRACE or end of
input. -/
def parse_block_statement : Nat → parser_t → statement_t × parser_t
  | 0, parser => (.block_statement parser.cur_tok [], parser)
  | fuel + 1, parser =>
    let tok := parser.cur_tok
    let parser1 := parser_next_token parser
    let r := parse_block_loop fuel [] parser1
    (.block_statement tok r.1, r.2)
termination_by structural fuel => fuel

/-- The `while (cur != RBRACE && cur != EOF)` loop of
`parse_block_statement`; a NULL statement is not added. -/
def parse_block_loop : Nat → List statement_t → parser_t →
    List statement_t × parser_t
  | 0, acc, parser => (acc, parser)
  | fuel + 1, acc, parser =>
    if parser.cur_tok.type = .RBRACE ∨ parser.cur_tok.type = .END_OF_FILE then (acc, parser)
    else
      let r := parser_parse_statement fuel parser
      parse_block_loop fuel (acc ++ r.1.toList) (parser_next_token r.2)
termination_by structural fuel => fuel

/-- `parse_if_expression` (src/src/cmonkey_utils.c:1607): `if ( cond )
{ cons }` with an optional `else { alt }`; `none` on any failed
`expect_peek`. -/
def parse_if_expression : Nat → parser_t → Option expression_t × parser_t
  | 0, parser => (none, parser)
  | fuel + 1, parser =>
    let tok := parser.cur_tok
    let e1 := expect_peek parser .LPAREN
    if e1.1 = false then (none, e1.2)
    else
      let parser2 := parser_next_token e1.2
      let rc := parse_expression fuel LOWEST parser2
      let e2 := expect_peek rc.2 .RPAREN
      if e2.1 = false then (none, e2.2)
      else
        let e3 := expect_peek e2.2 .LBRACE
        if e3.1 = false then (none, e3.2)
        else
          let rcons := parse_block_statement fuel e3.2
          if rcons.2.peek_tok.type = .ELSE then
            let parser3 := parser_next_token rcons.2
            let e4 := expect_peek parser3 .LBRACE
            if e4.1 = false then (none, e4.2)
            else
              let ralt := parse_block_statement fuel e4.2
              (some (.if_expression tok rc.1 (some rcons.1) (some ralt.1)), ralt.2)
          else (some (.if_expression tok rc.1 (some rcons.1) none), rcons.2)
termination_by structural fuel => fuel

/-- `parse_function_literal` (src/src/cmonkey_utils.c:1687): `fn ( params )
{ body }`; `none` when the LPAREN/LBRACE is missing or the parameter list
came back NULL. -/
def parse_function_literal : Nat → parser_t → Option expression_t × parser_t
  | 0, parser => (none, parser)
  | fuel + 1, parser =>
    let tok := parser.cur_tok
    let e1 := expect_peek parser .LPAREN
    if e1.1 = false then (none, e1.2)
    else
      let rp := parse_function_parameters fuel e1.2
      match rp.1 with
      | none => (none, rp.2)
      | some params =>
        let e2 := expect_peek rp.2 .LBRACE
        if e2.1 = false then (none, e2.2)
        else
          let rb := parse_block_statement fuel e2.2
          (some (.function_literal tok (some params) (some rb.1)), rb.2)
termination_by structural fuel => fuel

/-- `parse_call_arguments` (src/src/cmonkey_utils.c:1718): comma-separated
expressions then a required RPAREN (`none` models the C resetting
`call_exp->arguments = NULL` when it is missing).  A NULL expression result
is still added to the argument list, as `cm_list_add` stores the NULL
pointer. -/
def parse_call_arguments : Nat → parser_t →
    Option (List (Option expression_t)) × parser_t
  | 0, parser => (none, parser)
  | fuel + 1, parser =>
    if parser.peek_tok.type = .RPAREN then (some [], parser_next_token parser)
    else
      let parser1 := parser_next_token parser
      let ra := parse_expression fuel LOWEST parser1
      let rl := parse_call_args_loop fuel [ra.1] ra.2
      let e := expect_peek rl.2 .RPAREN
      if e.1 then (some rl.1, e.2) else (none, e.2)
termination_by structural fuel => fuel

/-- The `while (peek == COMMA)` loop of `parse_call_arguments`. -/
def parse_call_args_loop : Nat → List (Option expression_t) → parser_t →
    List (Option expression_t) × parser_t
  | 0, acc, parser => (acc, parser)
  | fuel + 1, acc, parser =>
    if parser.peek_tok.type = .COMMA then
      let parser1 := parser_next_token (parser_next_token parser)
      let ra := parse_expression fuel LOWEST parser1
      parse_call_args_loop fuel (acc ++ [ra.1]) ra.2
    else (acc, parser)
termination_by structural fuel => fuel

/-- `parse_call_expression` (src/src/cmonkey_utils.c:1743): the node's token
is a copy of the peek token (see `create_call_expression`); `none` when the
argument list came back NULL. -/
def parse_call_expression : Nat → parser_t → Option expression_t →
    Option expression_t × parser_t
  | 0, parser, _ => (none, parser)
  | fuel + 1, parser, function =>
    let tok := parser.peek_tok
    let ra := parse_call_arguments fuel parser
    match ra.1 with
    | none => (none, ra.2)
    | some args => (some (.call_expression tok function (some args)), ra.2)
termination_by structural fuel => fuel

/-- `parse_letstatement` (src/src/cmonkey_utils.c:1332): LET token, expected
IDENT, expected ASSIGN, value at LOWEST, optional trailing SEMICOLON. -/
def parse_letstatement : Nat → parser_t → Option statement_t × parser_t
  | 0, parser => (none, parser)
  | fuel + 1, parser =>
    let tok := parser.cur_tok
    let e1 := expect_peek parser .IDENT
    if e1.1 = false then (none, e1.2)
    else
      let name := (e1.2.cur_tok, e1.2.cur_tok.literal)
      let e2 := expect_peek e1.2 .ASSIGN
      if e2.1 = false then (none, e2.2)
      else
        let parser3 := parser_next_token e2.2
        let rv := parse_expression fuel LOWEST parser3
        let parser4 :=
          if rv.2.peek_tok.type = .SEMICOLON then parser_next_token rv.2 else rv.2
        (some (.letstatement tok (some name) rv.1), parser4)
termination_by structural fuel => fuel

/-- `parse_return_statement` (src/src/cmonkey_utils.c:1358): RETURN token,
advance, value at LOWEST (NULL when `parse_expression` fails), optional
trailing SEMICOLON. -/
def parse_return_statement : Nat → parser_t → Option statement_t × parser_t
  | 0, parser => (none, parser)
  | fuel + 1, parser =>
    let tok := parser.cur_tok
    let parser1 := parser_next_token parser
    let rv := parse_expression fuel LOWEST parser1
    let parser2 :=
      if rv.2.peek_tok.type = .SEMICOLON then parser_next_token rv.2 else rv.2
    (some (.return_statement tok rv.1), parser2)
termination_by structural fuel => fuel

/-- `parse_expression_statement` (src/src/cmonkey_utils.c:1411). -/
def parse_expression_statement : Nat → parser_t → Option statement_t × parser_t
  | 0, parser => (none, parser)
  | fuel + 1, parser =>
    let tok := parser.cur_tok
    let re := parse_expression fuel LOWEST parser
    let parser2 :=
      if re.2.peek_tok.type = .SEMICOLON then parser_next_token re.2 else re.2
    (some (.expression_statement tok re.1), parser2)
termination_by structural fuel => fuel

/-- `parser_parse_statement` (src/src/cmonkey_utils.c:1428): dispatch on the
current token. -/
def parser_parse_statement : Nat → parser_t → Option statement_t × parser_t
  | 0, parser => (none, parser)
  | fuel + 1, parser =>
    match parser.cur_tok.type with
    | .LET => parse_letstatement fuel parser
    | .RETURN => parse_return_statement fuel parser
    | _ => parse_expression_statement fuel parser
termination_by structural fuel => fuel

/-- The `while (cur != END_OF_FILE)` loop of `parse_program`; a NULL
statement is not added. -/
def parse_program_loop : Nat → List statement_t → parser_t →
    List statement_t × parser_t
  | 0, acc, parser => (acc, parser)
  | fuel + 1, acc, parser =>
    if parser.cur_tok.type = .END_OF_FILE then (acc, parser)
    else
      let r := parser_parse_statement fuel parser
      parse_program_loop fuel (acc ++ r.1.toList) (parser_next_token r.2)
termination_by structural fuel => fuel

end

/-- `parse_program` (src/src/cmonkey_utils.c:1390). -/
def parse_program (fuel : Nat) (parser : parser_t) : program_t × parser_t :=
  let r := parse_program_loop fuel [] parser
  ({ statements := r.1 }, r.2)

/-- The whole front end on a token stream: initialize the parser and parse a
program, with fuel. -/
def run_parse (fuel : Nat) (tokens : List token) : program_t × parser_t :=
  parse_program fuel (parser_init tokens)

/-! ## Theorems for the claims -/

/-- Claim C10: a successful `cm_list_add` returns 1, increments the length
field by exactly one, appends the new data as the tail (so the previously
stored data pointers are unchanged, in order, and the new node — with its
NULL `next` — is the last), keeping the list in insertion order. -/
theorem claim_C10 (α : Type) (l : cm_list α) (d : α) :
    (cm_list_add l d).1 = 1 ∧
    (cm_list_add l d).2.length = l.length + 1 ∧
    (cm_list_add l d).2.nodes = l.nodes ++ [d] ∧
    (cm_list_add l d).2.nodes.getLast? = some d := by
  rcases l with ⟨nodes, len⟩
  cases nodes with
  | nil => simp [cm_list_add]
  | cons a as =>
    refine ⟨rfl, rfl, by simp [cm_list_add], ?_⟩
    have : (cm_list_add { nodes := a :: as, length := len } d).2.nodes =
        (a :: as) ++ [d] := by simp [cm_list_add]
    rw [this, List.getLast?_concat]

/-- Claim C8 (spec-modelled codec): decoding the 2-byte big-endian encoding
of any `n < 65536` yields `n` back. -/
theorem claim_C8 (n : Nat) (h : n < 65536) :
    be_to_size_t (size_t_to_uint8_be n 2) = n := by
  have henc : size_t_to_uint8_be n 2 = [n / 256 % 256, n % 256] := by
    simp [size_t_to_uint8_be, List.range_succ]
  rw [henc]
  simp only [be_to_size_t, List.foldl]
  omega

/-- Witness for claim C8 at n = 300. -/
theorem claim_C8_witness :
    300 < 65536 ∧ be_to_size_t (size_t_to_uint8_be 300 2) = 300 :=
  ⟨by norm_num, claim_C8 300 (by norm_num)⟩

/-- Claim C2, evaluation of the code at the failing input: in a fresh
string-keyed table (any positive size — the C size comes from the
`INITIAL_HASHTABLE_SIZE` macro), `put("key1", "value1")` then
`put("key1", "value2")` followed by `get("key1")` yields `"value1"`, the
FIRST binding, not `"value2"`: `cm_hash_table_put` appends a second entry at
the bucket's tail without looking for an existing equal key, and
`cm_hash_table_get` returns the first match from the head. -/
theorem claim_C2_code_eval (n : Nat) (h : 0 < n) :
    cm_hash_table_get
      (cm_hash_table_put
        (cm_hash_table_put
          (cm_hash_table_init (ν := String) string_hash_function string_keycmp n)
          "key1" "value1")
        "key1" "value2")
      "key1" = some "value1" := by
  clear h
  simp [cm_hash_table_get, cm_hash_table_put, cm_hash_table_init, string_keycmp,
    List.find?]

/-- Witness for claim C2's evaluation, at table size 64. -/
theorem claim_C2_witness :
    0 < 64 ∧
    cm_hash_table_get
      (cm_hash_table_put
        (cm_hash_table_put
          (cm_hash_table_init (ν := String) string_hash_function string_keycmp 64)
          "key1" "value1")
        "key1" "value2")
      "key1" = some "value1" :=
  ⟨by norm_num, claim_C2_code_eval 64 (by norm_num)⟩

/-- Claim C5, counterexample: the `token_type` enum of src/token.h has no
STRING, COLON, LBRACKET or RBRACKET members. -/
theorem claim_C5_counterexample :
    "STRING" ∉ token_type_names ∧ "COLON" ∉ token_type_names ∧
    "LBRACKET" ∉ token_type_names ∧ "RBRACKET" ∉ token_type_names := by
  refine ⟨?_, ?_, ?_, ?_⟩ <;> decide

/-- Claim C5 as amended: the token kind enumeration is the closed 27-member
set ILLEGAL, END_OF_FILE, IDENT, INT, the operator kinds (ASSIGN, PLUS,
MINUS, BANG, SLASH, ASTERISK, LT, GT, EQ, NOT_EQ), the delimiter kinds
(COMMA, SEMICOLON, LPAREN, RPAREN, LBRACE, RBRACE) and the seven keyword
kinds — without STRING, COLON, LBRACKET or RBRACKET. -/
theorem claim_C5 :
    token_type_names = all_token_types.map get_token_name_from_type ∧
    (∀ t : token_type, t ∈ all_token_types) ∧
    token_type_names.length = 27 ∧
    "STRING" ∉ token_type_names ∧ "COLON" ∉ token_type_names ∧
    "LBRACKET" ∉ token_type_names ∧ "RBRACKET" ∉ token_type_names := by
  refine ⟨by decide, fun t => by cases t <;> decide, by decide, ?_, ?_, ?_, ?_⟩ <;> decide

/-! ### Lemmas about long_to_string (claim C9) -/

lemma digit_char_toNat (d : Nat) (hd : d < 10) : (Char.ofNat (48 + d)).toNat = 48 + d := by
  interval_cases d <;> decide

lemma lts_go_ne_nil (fuel m : Nat) (h : m < fuel) : lts_go fuel m ≠ [] := by
  obtain ⟨k, rfl⟩ : ∃ k, fuel = k + 1 := ⟨fuel - 1, by omega⟩
  simp only [lts_go]
  split <;> simp

lemma lts_go_all_digits (fuel : Nat) :
    ∀ m, m < fuel → ∀ c ∈ lts_go fuel m, 48 ≤ c.toNat ∧ c.toNat ≤ 57 := by
  induction fuel with
  | zero => omega
  | succ f ih =>
    intro m hm c hc
    simp only [lts_go] at hc
    by_cases h10 : 10 ≤ m
    · rw [if_pos h10] at hc
      rcases List.mem_append.1 hc with hc1 | hc2
      · exact ih (m / 10) (by omega) c hc1
      · have hd : m % 10 < 10 := Nat.mod_lt _ (by norm_num)
        have := digit_char_toNat (m % 10) hd
        simp only [List.mem_singleton] at hc2
        subst hc2
        omega
    · rw [if_neg h10] at hc
      simp only [List.mem_singleton] at hc
      subst hc
      have := digit_char_toNat m (by omega)
      omega

lemma lts_go_length (fuel : Nat) :
    ∀ m, m < fuel → (lts_go fuel m).length = css_go fuel m + 1 := by
  induction fuel with
  | zero => omega
  | succ f ih =>
    intro m hm
    simp only [lts_go, css_go]
    by_cases h10 : 10 ≤ m
    · rw [if_pos h10, if_pos h10]
      have hrec : m / 10 < f := by
        have : m / 10 < m := Nat.div_lt_self (by omega) (by norm_num)
        omega
      simp [ih (m / 10) hrec]
    · rw [if_neg h10, if_neg h10]
      simp

lemma lts_go_val (fuel : Nat) :
    ∀ m, m < fuel → ∀ a : Nat,
      (lts_go fuel m).foldl (fun acc c => acc * 10 + (c.toNat - 48)) a =
        a * 10 ^ (lts_go fuel m).length + m := by
  induction fuel with
  | zero => omega
  | succ f ih =>
    intro m hm a
    by_cases h10 : 10 ≤ m
    · have hrec : m / 10 < f := by
        have : m / 10 < m := Nat.div_lt_self (by omega) (by norm_num)
        omega
      have hd : m % 10 < 10 := Nat.mod_lt _ (by norm_num)
      have hchar := digit_char_toNat (m % 10) hd
      simp only [lts_go, if_pos h10, List.foldl_append, List.foldl_cons, List.foldl_nil,
        List.length_append, List.length_singleton]
      rw [ih (m / 10) hrec a, hchar]
      have hmod : m = 10 * (m / 10) + m % 10 := (Nat.div_add_mod m 10).symm ▸ by omega
      ring_nf
      omega
    · have hchar := digit_char_toNat m (by omega)
      simp only [lts_go, if_neg h10, List.foldl_cons, List.foldl_nil, List.length_singleton]
      rw [hchar]
      ring_nf
      omega

lemma lts_go_head (fuel : Nat) :
    ∀ m, m < fuel → 1 ≤ m → (lts_go fuel m).head? ≠ some (Char.ofNat 48) := by
  induction fuel with
  | zero => omega
  | succ f ih =>
    intro m hm hpos
    simp only [lts_go]
    by_cases h10 : 10 ≤ m
    · rw [if_pos h10]
      have hrec : m / 10 < f := by
        have : m / 10 < m := Nat.div_lt_self (by omega) (by norm_num)
        omega
      have hne := lts_go_ne_nil f (m / 10) hrec
      have hpos2 : 1 ≤ m / 10 := Nat.le_div_iff_mul_le (by norm_num) |>.2 (by omega)
      have hh := ih (m / 10) hrec hpos2
      rcases hx : lts_go f (m / 10) with _ | ⟨c, cs⟩
      · exact absurd hx hne
      · rw [hx] at hh
        simpa using hh
    · rw [if_neg h10]
      have hlt : m < 10 := by omega
      simp only [List.head?_cons, ne_eq, Option.some.injEq]
      intro hc
      have h1 := digit_char_toNat m (by omega)
      have h2 : (Char.ofNat 48).toNat = 48 := by decide
      rw [hc] at h1
      omega

lemma lts_go_zero (fuel : Nat) (h : 0 < fuel) : lts_go fuel 0 = [Char.ofNat 48] := by
  obtain ⟨k, rfl⟩ : ∃ k, fuel = k + 1 := ⟨fuel - 1, by omega⟩
  simp [lts_go]

/-- The (long) characterization used by claim C9 for the output of
`long_to_string l`: a minus sign exactly for negative `l`, then a nonempty
block of decimal digit characters with no leading zero, whose value is
`|l|`, with the total length predicted by `calculate_string_size`; reading
the string back as a decimal integer gives `l` again. -/
def long_to_string_spec (l : Int) : Prop :=
  ∃ ds : List Char,
    (long_to_string l).data = (if l < 0 then '-' :: ds else ds) ∧
    (long_to_string l).length = calculate_string_size l ∧
    ds ≠ [] ∧
    (∀ c ∈ ds, 48 ≤ c.toNat ∧ c.toNat ≤ 57) ∧
    dec_chars_val ds = l.natAbs ∧
    (l = 0 → ds = [Char.ofNat 48]) ∧
    (l ≠ 0 → ds.head? ≠ some (Char.ofNat 48)) ∧
    dec_string_val (long_to_string l) = l

/-- Claim C9: for every long `l > LONG_MIN`, `long_to_string l` is exactly
the decimal representation of `l` — the digits of `|l|` without leading
zeros ("0" for zero), prefixed by `-` exactly when `l` is negative — and
converting the string back to an integer yields `l`. -/
theorem claim_C9 (l : Int) (h : LONG_MIN < l) : long_to_string_spec l := by
  refine ⟨lts_go (l.natAbs + 1) l.natAbs, ?_, ?_, ?_, ?_, ?_, ?_, ?_, ?_⟩
  · rfl
  · have hlen := lts_go_length (l.natAbs + 1) l.natAbs (by omega)
    by_cases hneg : l < 0
    · simp only [long_to_string, calculate_string_size, String.length, if_pos hneg]
      simp [hlen]
      omega
    · simp only [long_to_string, calculate_string_size, String.length, if_neg hneg]
      simp [hlen]
  · exact lts_go_ne_nil _ _ (by omega)
  · exact lts_go_all_digits _ _ (by omega)
  · have := lts_go_val (l.natAbs + 1) l.natAbs (by omega) 0
    simpa [dec_chars_val] using this
  · intro h0
    subst h0
    simpa using lts_go_zero 1 (by norm_num)
  · intro h0
    exact lts_go_head _ _ (by omega) (by omega)
  · have hval : dec_chars_val (lts_go (l.natAbs + 1) l.natAbs) = l.natAbs := by
      have := lts_go_val (l.natAbs + 1) l.natAbs (by omega) 0
      simpa [dec_chars_val] using this
    simp only [long_to_string]
    by_cases hneg : l < 0
    · rw [if_pos hneg]
      have hred : dec_string_val ⟨'-' :: lts_go (l.natAbs + 1) l.natAbs⟩ =
          -(dec_chars_val (lts_go (l.natAbs + 1) l.natAbs) : Int) := by
        simp [dec_string_val]
      rw [hred, hval]
      omega
    · rw [if_neg hneg]
      have hpos : 0 ≤ l := by omega
      rcases hds : lts_go (l.natAbs + 1) l.natAbs with _ | ⟨c, cs⟩
      · exact absurd hds (lts_go_ne_nil _ _ (by omega))
      · have hc : 48 ≤ c.toNat ∧ c.toNat ≤ 57 := by
          apply lts_go_all_digits (l.natAbs + 1) l.natAbs (by omega)
          rw [hds]; exact List.mem_cons_self _ _
        have hcne : c ≠ '-' := by
          intro hcc
          subst hcc
          revert hc
          decide
        rw [hds] at hval
        simp only [dec_string_val]
        rw [if_neg hcne]
        rw [hval]
        omega

/-- Witness for claim C9 at l = -42. -/
theorem claim_C9_witness : LONG_MIN < (-42 : Int) ∧ long_to_string_spec (-42) :=
  ⟨by decide, claim_C9 (-42) (by decide)⟩

/-- Claim C3, counterexample: on the token stream of `return ;` the parser
does produce a Return statement with a null return value, but it records the
parse error `no prefix parse function for the token ";"` — not no error. -/
theorem claim_C3_counterexample :
    (run_parse 30 [⟨.RETURN, "return"⟩, ⟨.SEMICOLON, ";"⟩]).1.statements =
      [.return_statement ⟨.RETURN, "return"⟩ none] ∧
    (run_parse 30 [⟨.RETURN, "return"⟩, ⟨.SEMICOLON, ";"⟩]).2.errors =
      ["no prefix parse function for the token \";\""] :=
  ⟨rfl, rfl⟩

/-- Claim C3 as amended: whenever the token after RETURN is a semicolon,
`parse_return_statement` produces a Return statement whose return value is
null, and records exactly one parse error for it — `no prefix parse function
for the token "<semicolon literal>"` (there is no special case for an absent
return expression). -/
theorem claim_C3 (fuel : Nat) (rtok : token) (semi_lit : String)
    (rest : List token) (errs : List String) :
    (parse_return_statement (fuel + 2) ⟨rtok, ⟨.SEMICOLON, semi_lit⟩, rest, errs⟩).1 =
      some (.return_statement rtok none) ∧
    (parse_return_statement (fuel + 2) ⟨rtok, ⟨.SEMICOLON, semi_lit⟩, rest, errs⟩).2.errors =
      errs ++ ["no prefix parse function for the token \"" ++ semi_lit ++ "\""] := by
  have h2 : fuel + 2 = (fuel + 1) + 1 := rfl
  rw [h2]
  simp only [parse_return_statement, parse_expression, parser_next_token, lexer_next_token,
    prefix_fns, handle_no_prefix_fn, add_parse_error]
  cases rest with
  | nil => simp [eof_token]
  | cons t ts => split <;> simp

/-- Claim C4, counterexample: a token stream whose current token is `{` in
expression position yields no expression and the error
`no prefix parse function for the token "{"`; the prefix table's LBRACE slot
is NULL (and there is no LBRACKET token kind at all). -/
theorem claim_C4_counterexample :
    (run_parse 30 [⟨.LBRACE, "\x7b"⟩]).1.statements =
      [.expression_statement ⟨.LBRACE, "\x7b"⟩ none] ∧
    (run_parse 30 [⟨.LBRACE, "\x7b"⟩]).2.errors =
      ["no prefix parse function for the token \"\x7b\""] ∧
    prefix_fns .LBRACE = none :=
  ⟨rfl, rfl, rfl⟩

/-- Claim C4 as amended: the prefix and infix parse function tables have
NULL in the LBRACE slot and the token set has no LBRACKET kind, so the
parser supports no array or hash literals; for every token stream whose
current token is `{` in expression position, `parse_expression` returns no
expression and records `no prefix parse function for the token "{"`. -/
theorem claim_C4 :
    prefix_fns .LBRACE = none ∧
    infix_fns .LBRACE = none ∧
    "LBRACKET" ∉ token_type_names ∧
    ∀ (fuel prec : Nat) (lit : String) (pk : token) (rest : List token) (errs : List String),
      (parse_expression (fuel + 1) prec ⟨⟨.LBRACE, lit⟩, pk, rest, errs⟩).1 = none ∧
      (parse_expression (fuel + 1) prec ⟨⟨.LBRACE, lit⟩, pk, rest, errs⟩).2.errors =
        errs ++ ["no prefix parse function for the token \"" ++ lit ++ "\""] := by
  refine ⟨rfl, rfl, by decide, ?_⟩
  intro fuel prec lit pk rest errs
  simp [parse_expression, prefix_fns, handle_no_prefix_fn, add_parse_error]

/-- Claim C7, evaluation at the failing input: the program `fn ( x ) { x; }`
lexes and parses without errors into a function-literal program, but its
pretty-printed form is `fn(x) x` — `function_literal_string` glues the
parameters to a `block_statement_string` body that carries no braces — and
re-lexing and re-parsing that string records
`expected next token to be LBRACE, got IDENT instead` and yields two
statements, neither of them a function literal: not a structurally identical
AST. -/
theorem claim_C7_code_eval :
    (run_parse 30 (lex "fn ( x ) \x7b x; \x7d")).2.errors = [] ∧
    (run_parse 30 (lex "fn ( x ) \x7b x; \x7d")).1.statements =
      [.expression_statement ⟨.FUNCTION, "fn"⟩
        (some (.function_literal ⟨.FUNCTION, "fn"⟩
          (some [(⟨.IDENT, "x"⟩, "x")])
          (some (.block_statement ⟨.LBRACE, "\x7b"⟩
            [.expression_statement ⟨.IDENT, "x"⟩
              (some (.identifier ⟨.IDENT, "x"⟩ "x"))]))))] ∧
    program_string (run_parse 30 (lex "fn ( x ) \x7b x; \x7d")).1 = some "fn(x) x" ∧
    (run_parse 30 (lex "fn(x) x")).2.errors =
      ["expected next token to be LBRACE, got IDENT instead"] ∧
    (run_parse 30 (lex "fn(x) x")).1.statements =
      [.expression_statement ⟨.FUNCTION, "fn"⟩ none,
       .expression_statement ⟨.IDENT, "x"⟩ (some (.identifier ⟨.IDENT, "x"⟩ "x"))] :=
  ⟨rfl, rfl, rfl, rfl, rfl⟩

/-! ### Lemmas for claim C1 -/

/-- A token literal that `strtol` converts cleanly: the whole string is
consumed (so at least one digit, no trailing characters) without overflow,
yielding `v`. -/
def int_literal_clean (s : String) (v : Int) : Prop :=
  strtol10 s = { value := v, consumed := s.length, overflow := false } ∧ s.length ≠ 0

lemma parse_integer_clean (p : parser_t) (v : Int)
    (h : int_literal_clean p.cur_tok.literal v) :
    parse_integer_expression p = (some (.integer p.cur_tok v), p) := by
  rcases h with ⟨h1, h2⟩
  simp [parse_integer_expression, h1, h2]

lemma infix_op_facts (t : token_type) (h : infix_fns t = some .infix_op_fn) :
    t ≠ .SEMICOLON ∧ 1 ≤ precedence t ∧ precedence t ≤ 4 := by
  cases t <;> simp_all [infix_fns] <;> decide

lemma pe_int_step (f prec : Nat) (p : parser_t) (v : Int)
    (ht : p.cur_tok.type = .INT) (h : int_literal_clean p.cur_tok.literal v) :
    parse_expression (f + 1) prec p =
      parse_expression_loop f prec (some (.integer p.cur_tok v)) p := by
  simp only [parse_expression, ht, prefix_fns, parse_integer_clean p v h]

lemma loop_break_semi (f prec : Nat) (left : Option expression_t) (p : parser_t)
    (h : p.peek_tok.type = .SEMICOLON) :
    parse_expression_loop (f + 1) prec left p = (left, p) := by
  simp only [parse_expression_loop, h]
  simp

lemma loop_break_prec (f prec : Nat) (left : Option expression_t) (p : parser_t)
    (h : precedence p.peek_tok.type ≤ prec) :
    parse_expression_loop (f + 1) prec left p = (left, p) := by
  by_cases hs : p.peek_tok.type = .SEMICOLON
  · simp only [parse_expression_loop, hs]
    simp
  · simp only [parse_expression_loop, peek_precedence, hs]
    simp [h]

lemma loop_consume_infix_op (f prec : Nat) (left : Option expression_t) (p : parser_t)
    (hs : p.peek_tok.type ≠ .SEMICOLON) (hp : prec < precedence p.peek_tok.type)
    (hi : infix_fns p.peek_tok.type = some .infix_op_fn) :
    parse_expression_loop (f + 1) prec left p =
      parse_expression_loop f prec
        (parse_infix_expression f (parser_next_token p) left).1
        (parse_infix_expression f (parser_next_token p) left).2 := by
  simp only [parse_expression_loop, peek_precedence, hs, hi, if_neg hs,
    if_neg (Nat.not_le.mpr hp)]
  simp

lemma infix_step (f : Nat) (p : parser_t) (left : Option expression_t) :
    parse_infix_expression (f + 1) p left =
      (some (.infix_expression p.cur_tok p.cur_tok.literal left
        (parse_expression f (precedence p.cur_tok.type) (parser_next_token p)).1),
       (parse_expression f (precedence p.cur_tok.type) (parser_next_token p)).2) := by
  simp only [parse_infix_expression, cur_precedence]

def c1_grouping (t1 t2 : token_type) (s1 s2 la lb lc : String)
    (va vb vc : Int) (fuel : Nat) : Prop :=
  (parse_expression (fuel + 12) LOWEST
    (parser_init [⟨.INT, la⟩, ⟨t1, s1⟩, ⟨.INT, lb⟩, ⟨t2, s2⟩, ⟨.INT, lc⟩])).1 =
  some (if precedence t2 ≤ precedence t1 then
    .infix_expression ⟨t2, s2⟩ s2
      (some (.infix_expression ⟨t1, s1⟩ s1 (some (.integer ⟨.INT, la⟩ va))
        (some (.integer ⟨.INT, lb⟩ vb))))
      (some (.integer ⟨.INT, lc⟩ vc))
  else
    .infix_expression ⟨t1, s1⟩ s1 (some (.integer ⟨.INT, la⟩ va))
      (some (.infix_expression ⟨t2, s2⟩ s2 (some (.integer ⟨.INT, lb⟩ vb))
        (some (.integer ⟨.INT, lc⟩ vc)))))

theorem c1_grouping_holds (t1 t2 : token_type) (s1 s2 la lb lc : String) (va vb vc : Int) (fuel : Nat)
    (h1 : infix_fns t1 = some .infix_op_fn) (h2 : infix_fns t2 = some .infix_op_fn)
    (hla : int_literal_clean la va) (hlb : int_literal_clean lb vb)
    (hlc : int_literal_clean lc vc) :
    c1_grouping t1 t2 s1 s2 la lb lc va vb vc fuel := by
  obtain ⟨ht1ne, hq1, -⟩ := infix_op_facts t1 h1
  obtain ⟨ht2ne, hq2, -⟩ := infix_op_facts t2 h2
  have hp1 : LOWEST < precedence t1 := by simp only [LOWEST]; omega
  have hp2 : LOWEST < precedence t2 := by simp only [LOWEST]; omega
  unfold c1_grouping
  rw [show fuel + 12 =
    (((((((((((fuel + 1) + 1) + 1) + 1) + 1) + 1) + 1) + 1) + 1) + 1) + 1) + 1 from rfl]
  rw [show parser_init [⟨.INT, la⟩, ⟨t1, s1⟩, ⟨.INT, lb⟩, ⟨t2, s2⟩, ⟨.INT, lc⟩] =
    (⟨⟨.INT, la⟩, ⟨t1, s1⟩, [⟨.INT, lb⟩, ⟨t2, s2⟩, ⟨.INT, lc⟩], []⟩ : parser_t) from rfl]
  rw [pe_int_step _ _ _ va rfl hla]
  rw [loop_consume_infix_op _ _ _ _ ht1ne hp1 h1]
  simp only [parser_next_token, lexer_next_token]
  rw [infix_step]
  simp only [parser_next_token, lexer_next_token]
  rw [pe_int_step _ _ _ vb rfl hlb]
  by_cases hcmp : precedence t2 ≤ precedence t1
  · rw [if_pos hcmp]
    rw [loop_break_prec _ (precedence t1) _ _ hcmp]
    rw [loop_consume_infix_op _ LOWEST _ _ ht2ne hp2 h2]
    simp only [parser_next_token, lexer_next_token]
    rw [infix_step]
    simp only [parser_next_token, lexer_next_token]
    rw [pe_int_step _ _ _ vc rfl hlc]
    rw [loop_break_prec _ (precedence t2) _ _ (Nat.zero_le _)]
    rw [loop_break_prec _ LOWEST _ _ (Nat.zero_le _)]
  · rw [if_neg hcmp]
    have hlt : precedence t1 < precedence t2 := Nat.not_le.mp hcmp
    rw [loop_consume_infix_op _ (precedence t1) _ _ ht2ne hlt h2]
    simp only [parser_next_token, lexer_next_token]
    rw [infix_step]
    simp only [parser_next_token, lexer_next_token]
    rw [pe_int_step _ _ _ vc rfl hlc]
    rw [loop_break_prec _ (precedence t2) _ _ (Nat.zero_le _)]
    rw [loop_break_prec _ (precedence t1) _ _ (Nat.zero_le _)]
    rw [loop_break_prec _ LOWEST _ _ (Nat.zero_le _)]

/-- Claim C1: `parse_expression` implements precedence climbing.  The
conjuncts: (1) the `precedence` table gives EQUALS to `==`/`!=`, LESSGREATER
to `<`/`>`, SUM to `+`/`-`, PRODUCT to `*`/`/` and CALL to `(`, with the
levels strictly ordered LOWEST < EQUALS < LESSGREATER < SUM < PRODUCT <
PREFIX < CALL; (2) after the prefix parser returns a left subtree the loop
stops when the peek token is a semicolon; (3) it also stops when the minimum
precedence is not strictly below the peek token's precedence (here SUM vs
`+`); (4) the token stream of `1 + 2 * 3` parses without error to an AST
whose string form is `(1 + (2 * 3))`; (5) in general, for any two binary
operators and any cleanly converting integer literals, the parse of
`a op1 b op2 c` groups to the left exactly when `precedence op2 ≤ precedence
op1` (so equal precedences associate left) and to the right otherwise (so
the higher-precedence operator binds tighter). -/
theorem claim_C1 :
    (precedence .EQ = EQUALS ∧ precedence .NOT_EQ = EQUALS ∧
     precedence .LT = LESSGREATER ∧ precedence .GT = LESSGREATER ∧
     precedence .PLUS = SUM ∧ precedence .MINUS = SUM ∧
     precedence .SLASH = PRODUCT ∧ precedence .ASTERISK = PRODUCT ∧
     precedence .LPAREN = CALL ∧
     LOWEST < EQUALS ∧ EQUALS < LESSGREATER ∧ LESSGREATER < SUM ∧
     SUM < PRODUCT ∧ PRODUCT < PREFIX_LEVEL ∧ PREFIX_LEVEL < CALL) ∧
    (parse_expression 20 LOWEST
      (parser_init [⟨.INT, "1"⟩, ⟨.SEMICOLON, ";"⟩, ⟨.PLUS, "+"⟩, ⟨.INT, "2"⟩])).1 =
      some (.integer ⟨.INT, "1"⟩ 1) ∧
    (parse_expression 20 SUM
      (parser_init [⟨.INT, "1"⟩, ⟨.PLUS, "+"⟩, ⟨.INT, "2"⟩])).1 =
      some (.integer ⟨.INT, "1"⟩ 1) ∧
    ((run_parse 30 (lex "1 + 2 * 3")).2.errors = [] ∧
     program_string (run_parse 30 (lex "1 + 2 * 3")).1 = some "(1 + (2 * 3))") ∧
    (∀ (t1 t2 : token_type) (s1 s2 la lb lc : String) (va vb vc : Int) (fuel : Nat),
      infix_fns t1 = some .infix_op_fn → infix_fns t2 = some .infix_op_fn →
      int_literal_clean la va → int_literal_clean lb vb → int_literal_clean lc vc →
      c1_grouping t1 t2 s1 s2 la lb lc va vb vc fuel) := by
  refine ⟨⟨rfl, rfl, rfl, rfl, rfl, rfl, rfl, rfl, rfl, ?_, ?_, ?_, ?_, ?_, ?_⟩,
    rfl, rfl, ⟨rfl, rfl⟩, ?_⟩
  · decide
  · decide
  · decide
  · decide
  · decide
  · decide
  · intro t1 t2 s1 s2 la lb lc va vb vc fuel h1 h2 hla hlb hlc
    exact c1_grouping_holds t1 t2 s1 s2 la lb lc va vb vc fuel h1 h2 hla hlb hlc

/-- Witness for claim C1's general grouping conjunct, at `1 + 2 * 3` with
`+` and `*`. -/
theorem claim_C1_witness :
    infix_fns .PLUS = some .infix_op_fn ∧ infix_fns .ASTERISK = some .infix_op_fn ∧
    int_literal_clean "1" 1 ∧ int_literal_clean "2" 2 ∧ int_literal_clean "3" 3 ∧
    c1_grouping .PLUS .ASTERISK "+" "*" "1" "2" "3" 1 2 3 0 := by
  refine ⟨rfl, rfl, ⟨by decide, by decide⟩, ⟨by decide, by decide⟩, ⟨by decide, by decide⟩, ?_⟩
  exact claim_C1.2.2.2.2 .PLUS .ASTERISK "+" "*" "1" "2" "3" 1 2 3 0 rfl rfl
    ⟨by decide, by decide⟩ ⟨by decide, by decide⟩ ⟨by decide, by decide⟩

/-! ### Error message forms (claim C6) -/

/-- The three textual templates from which the parser builds every error
message: `peek_error`'s, `handle_no_prefix_fn`'s and
`parse_integer_expression`'s. -/
def err_msg_form_ok (m : String) : Prop :=
  (∃ x y : token_type, m = "expected next token to be " ++ get_token_name_from_type x ++
      ", got " ++ get_token_name_from_type y ++ " instead") ∨
  (∃ z : String, m = "no prefix parse function for the token \"" ++ z ++ "\"") ∨
  (∃ s : String, m = "could not parse " ++ s ++ " as integer")

/-- Every recorded error message is an instance of one of the three
templates. -/
def errs_ok (p : parser_t) : Prop := ∀ m ∈ p.errors, err_msg_form_ok m

lemma errs_ok_add (p : parser_t) (msg : String) (h : errs_ok p)
    (hm : err_msg_form_ok msg) : errs_ok (add_parse_error p msg) := by
  intro m hmem
  simp only [add_parse_error, List.mem_append, List.mem_singleton] at hmem
  rcases hmem with hmem | rfl
  · exact h m hmem
  · exact hm

lemma errs_ok_next (p : parser_t) (h : errs_ok p) : errs_ok (parser_next_token p) := h

lemma errs_ok_peek_error (p : parser_t) (t : token_type) (h : errs_ok p) :
    errs_ok (peek_error p t) :=
  errs_ok_add p _ h (Or.inl ⟨t, p.peek_tok.type, rfl⟩)

lemma errs_ok_no_prefix (p : parser_t) (h : errs_ok p) :
    errs_ok (handle_no_prefix_fn p) :=
  errs_ok_add p _ h (Or.inr (Or.inl ⟨p.cur_tok.literal, rfl⟩))

lemma errs_ok_expect_peek (p : parser_t) (t : token_type) (h : errs_ok p) :
    errs_ok (expect_peek p t).2 := by
  unfold expect_peek
  split
  · exact errs_ok_next p h
  · exact errs_ok_peek_error p t h

lemma errs_ok_parse_integer (p : parser_t) (h : errs_ok p) :
    errs_ok (parse_integer_expression p).2 := by
  simp only [parse_integer_expression]
  split
  · exact errs_ok_add p _ h (Or.inr (Or.inr ⟨p.cur_tok.literal, rfl⟩))
  · exact h

lemma errs_ok_params_loop (fuel : Nat) :
    ∀ (acc : List (token × String)) (p : parser_t), errs_ok p →
      errs_ok (parse_params_loop fuel acc p).2 := by
  induction fuel with
  | zero => intro acc p h; exact h
  | succ f ih =>
    intro acc p h
    simp only [parse_params_loop]
    split
    · exact ih _ _ (errs_ok_next _ (errs_ok_next _ h))
    · exact h

lemma errs_ok_function_params (fuel : Nat) (p : parser_t) (h : errs_ok p) :
    errs_ok (parse_function_parameters fuel p).2 := by
  cases fuel with
  | zero => exact h
  | succ f =>
    simp only [parse_function_parameters]
    split
    · exact errs_ok_next p h
    · split
      · exact errs_ok_expect_peek _ _ (errs_ok_params_loop f _ _ (errs_ok_next p h))
      · exact errs_ok_expect_peek _ _ (errs_ok_params_loop f _ _ (errs_ok_next p h))

/-- Every function of the recursive parser block only ever appends messages
of the three templates, whatever the input state. -/
theorem errs_ok_parser_block : ∀ fuel : Nat,
    (∀ (prec : Nat) (p : parser_t), errs_ok p → errs_ok (parse_expression fuel prec p).2) ∧
    (∀ (prec : Nat) (left : Option expression_t) (p : parser_t), errs_ok p →
      errs_ok (parse_expression_loop fuel prec left p).2) ∧
    (∀ p : parser_t, errs_ok p → errs_ok (parse_prefix_expression fuel p).2) ∧
    (∀ (p : parser_t) (left : Option expression_t), errs_ok p →
      errs_ok (parse_infix_expression fuel p left).2) ∧
    (∀ p : parser_t, errs_ok p → errs_ok (parse_grouped_expression fuel p).2) ∧
    (∀ p : parser_t, errs_ok p → errs_ok (parse_block_statement fuel p).2) ∧
    (∀ (acc : List statement_t) (p : parser_t), errs_ok p →
      errs_ok (parse_block_loop fuel acc p).2) ∧
    (∀ p : parser_t, errs_ok p → errs_ok (parse_if_expression fuel p).2) ∧
    (∀ p : parser_t, errs_ok p → errs_ok (parse_function_literal fuel p).2) ∧
    (∀ p : parser_t, errs_ok p → errs_ok (parse_call_arguments fuel p).2) ∧
    (∀ (acc : List (Option expression_t)) (p : parser_t), errs_ok p →
      errs_ok (parse_call_args_loop fuel acc p).2) ∧
    (∀ (p : parser_t) (left : Option expression_t), errs_ok p →
      errs_ok (parse_call_expression fuel p left).2) ∧
    (∀ p : parser_t, errs_ok p → errs_ok (parse_letstatement fuel p).2) ∧
    (∀ p : parser_t, errs_ok p → errs_ok (parse_return_statement fuel p).2) ∧
    (∀ p : parser_t, errs_ok p → errs_ok (parse_expression_statement fuel p).2) ∧
    (∀ p : parser_t, errs_ok p → errs_ok (parser_parse_statement fuel p).2) ∧
    (∀ (acc : List statement_t) (p : parser_t), errs_ok p →
      errs_ok (parse_program_loop fuel acc p).2) := by
  intro fuel
  induction fuel with
  | zero =>
    exact ⟨fun _ p h => h, fun _ _ p h => h, fun p h => h, fun p _ h => h, fun p h => h,
      fun p h => h, fun _ p h => h, fun p h => h, fun p h => h, fun p h => h,
      fun _ p h => h, fun p _ h => h, fun p h => h, fun p h => h, fun p h => h,
      fun p h => h, fun _ p h => h⟩
  | succ f ih =>
    obtain ⟨ihE, ihL, ihP, ihI, ihG, ihB, ihBL, ihIf, ihF, ihCA, ihCAL, ihC, ihLet,
      ihRet, ihES, ihS, ihPL⟩ := ih
    refine ⟨?_, ?_, ?_, ?_, ?_, ?_, ?_, ?_, ?_, ?_, ?_, ?_, ?_, ?_, ?_, ?_, ?_⟩
    · -- parse_expression
      intro prec p h
      simp only [parse_expression]
      rcases hpf : prefix_fns p.cur_tok.type with _ | pfn
      · exact errs_ok_no_prefix p h
      · cases pfn
        · exact ihL _ _ _ h
        · exact ihL _ _ _ (errs_ok_parse_integer p h)
        · exact ihL _ _ _ (ihP _ h)
        · exact ihL _ _ _ (ihG _ h)
        · exact ihL _ _ _ (ihF _ h)
        · exact ihL _ _ _ (ihIf _ h)
        · exact ihL _ _ _ h
    · -- parse_expression_loop
      intro prec left p h
      simp only [parse_expression_loop]
      split
      · exact h
      · split
        · exact h
        · rcases hif : infix_fns p.peek_tok.type with _ | ifn
          · exact h
          · cases ifn
            · exact ihL _ _ _ (ihI _ _ (errs_ok_next p h))
            · exact ihL _ _ _ (ihC _ _ (errs_ok_next p h))
    · -- parse_prefix_expression
      intro p h
      simp only [parse_prefix_expression]
      exact ihE _ _ (errs_ok_next p h)
    · -- parse_infix_expression
      intro p left h
      simp only [parse_infix_expression]
      exact ihE _ _ (errs_ok_next p h)
    · -- parse_grouped_expression
      intro p h
      simp only [parse_grouped_expression]
      split
      · exact errs_ok_expect_peek _ _ (ihE _ _ (errs_ok_next p h))
      · exact errs_ok_expect_peek _ _ (ihE _ _ (errs_ok_next p h))
    · -- parse_block_statement
      intro p h
      simp only [parse_block_statement]
      exact ihBL _ _ (errs_ok_next p h)
    · -- parse_block_loop
      intro acc p h
      simp only [parse_block_loop]
      split
      · exact h
      · exact ihBL _ _ (errs_ok_next _ (ihS _ h))
    · -- parse_if_expression
      intro p h
      simp only [parse_if_expression]
      split
      · exact errs_ok_expect_peek _ _ h
      · split
        · exact errs_ok_expect_peek _ _ (ihE _ _ (errs_ok_next _ (errs_ok_expect_peek _ _ h)))
        · split
          · exact errs_ok_expect_peek _ _
              (errs_ok_expect_peek _ _ (ihE _ _ (errs_ok_next _ (errs_ok_expect_peek _ _ h))))
          · split
            · split
              · exact errs_ok_expect_peek _ _ (errs_ok_next _
                  (ihB _ (errs_ok_expect_peek _ _ (errs_ok_expect_peek _ _
                    (ihE _ _ (errs_ok_next _ (errs_ok_expect_peek _ _ h)))))))
              · exact ihB _ (errs_ok_expect_peek _ _ (errs_ok_next _
                  (ihB _ (errs_ok_expect_peek _ _ (errs_ok_expect_peek _ _
                    (ihE _ _ (errs_ok_next _ (errs_ok_expect_peek _ _ h))))))))
            · exact ihB _ (errs_ok_expect_peek _ _ (errs_ok_expect_peek _ _
                (ihE _ _ (errs_ok_next _ (errs_ok_expect_peek _ _ h)))))
    · -- parse_function_literal
      intro p h
      simp only [parse_function_literal]
      split
      · exact errs_ok_expect_peek _ _ h
      · rcases hps : (parse_function_parameters f (expect_peek p .LPAREN).2).1 with _ | params
        · simp only [hps]
          exact errs_ok_function_params _ _ (errs_ok_expect_peek _ _ h)
        · simp only [hps]
          split
          · exact errs_ok_expect_peek _ _ (errs_ok_function_params _ _ (errs_ok_expect_peek _ _ h))
          · exact ihB _ (errs_ok_expect_peek _ _
              (errs_ok_function_params _ _ (errs_ok_expect_peek _ _ h)))
    · -- parse_call_arguments
      intro p h
      simp only [parse_call_arguments]
      split
      · exact errs_ok_next p h
      · split
        · exact errs_ok_expect_peek _ _ (ihCAL _ _ (ihE _ _ (errs_ok_next p h)))
        · exact errs_ok_expect_peek _ _ (ihCAL _ _ (ihE _ _ (errs_ok_next p h)))
    · -- parse_call_args_loop
      intro acc p h
      simp only [parse_call_args_loop]
      split
      · exact ihCAL _ _ (ihE _ _ (errs_ok_next _ (errs_ok_next p h)))
      · exact h
    · -- parse_call_expression
      intro p left h
      simp only [parse_call_expression]
      rcases hca : (parse_call_arguments f p).1 with _ | args
      · simp only [hca]
        exact ihCA _ h
      · simp only [hca]
        exact ihCA _ h
    · -- parse_letstatement
      intro p h
      simp only [parse_letstatement]
      split
      · exact errs_ok_expect_peek _ _ h
      · split
        · exact errs_ok_expect_peek _ _ (errs_ok_expect_peek _ _ h)
        · split
          · exact errs_ok_next _ (ihE _ _ (errs_ok_next _
              (errs_ok_expect_peek _ _ (errs_ok_expect_peek _ _ h))))
          · exact ihE _ _ (errs_ok_next _
              (errs_ok_expect_peek _ _ (errs_ok_expect_peek _ _ h)))
    · -- parse_return_statement
      intro p h
      simp only [parse_return_statement]
      split
      · exact errs_ok_next _ (ihE _ _ (errs_ok_next p h))
      · exact ihE _ _ (errs_ok_next p h)
    · -- parse_expression_statement
      intro p h
      simp only [parse_expression_statement]
      split
      · exact errs_ok_next _ (ihE _ _ h)
      · exact ihE _ _ h
    · -- parser_parse_statement
      intro p h
      simp only [parser_parse_statement]
      split
      · exact ihLet _ h
      · exact ihRet _ h
      · exact ihES _ h
    · -- parse_program_loop
      intro acc p h
      simp only [parse_program_loop]
      split
      · exact h
      · exact ihPL _ _ (errs_ok_next _ (ihS _ h))

/-- Claim C6, counterexample: the token stream holding a single INT token
whose literal overflows a long makes the parser record
`could not parse 99999999999999999999 as integer`, a message that is an
instance of neither of the claim's two forms. -/
theorem claim_C6_counterexample :
    ∃ m ∈ (run_parse 30 [⟨.INT, "99999999999999999999"⟩]).2.errors,
      (¬ ∃ x y : String, m = "expected next token to be " ++ x ++ ", got " ++ y ++ " instead") ∧
      (¬ ∃ z : String, m = "no prefix parse function for token " ++ z) := by
  refine ⟨"could not parse 99999999999999999999 as integer", by decide, ?_, ?_⟩
  · rintro ⟨x, y, hxy⟩
    have hd := congrArg String.data hxy
    simp only [String.data_append] at hd
    simp at hd
  · rintro ⟨z, hz⟩
    have hd := congrArg String.data hz
    simp only [String.data_append] at hd
    simp at hd

/-- Claim C6 as amended: every error message the parser records on any token
stream is an instance of one of exactly three textual forms:
`expected next token to be X, got Y instead` (X, Y token names),
`no prefix parse function for the token "Z"` (Z the token's literal — note
the article and the quotes in the code's actual format string), or
`could not parse L as integer` (L the INT token's literal, from
`parse_integer_expression` when `strtol` fails to convert it cleanly). -/
theorem claim_C6 (fuel : Nat) (tokens : List token) :
    ∀ m ∈ (run_parse fuel tokens).2.errors, err_msg_form_ok m := by
  intro m hm
  have h0 : errs_ok (parser_init tokens) := by
    intro x hx
    exact absurd hx (List.not_mem_nil x)
  obtain ⟨-, -, -, -, -, -, -, -, -, -, -, -, -, -, -, -, hPL⟩ :=
    errs_ok_parser_block fuel
  exact hPL [] (parser_init tokens) h0 m hm

/-- Witness for claim C6 on the `return ;` stream. -/
theorem claim_C6_witness :
    ("no prefix parse function for the token \";\"" ∈
      (run_parse 30 [⟨.RETURN, "return"⟩, ⟨.SEMICOLON, ";"⟩]).2.errors) ∧
    err_msg_form_ok "no prefix parse function for the token \";\"" :=
  ⟨by decide,
   claim_C6 30 [⟨.RETURN, "return"⟩, ⟨.SEMICOLON, ";"⟩]
     "no prefix parse function for the token \";\"" (by decide)⟩

end Cmonkey
